import Mathlib

/-
Verification development for `eodms-orderdownload.py` (EODMS RAPI search /
order / download script, v2.0.0).

Python strings are modelled as lists of characters (`Str`); a Python function
that can raise an exception is modelled as returning an `Option` (with `none`
for a raised exception).  External collaborators (the RAPI network client, CSV
and geospatial file writers, logging and printing) are abstracted: network
responses become parameters, and file-system calls become explicit `Effect`
values in a trace.
-/

namespace EodmsOD

/-- Python strings, modelled as lists of characters. -/
abbrev Str := List Char

/-- Character list of a Lean string literal (used to write concrete inputs). -/
def strL (s : String) : Str := s.data

/-- The whitespace characters removed by Python `str.strip()`. -/
def isPySpace (c : Char) : Bool :=
  c == ' ' || c == '\t' || c == '\n' || c == '\r' || c == '\x0b' || c == '\x0c'

/-- Python `s.strip()`. -/
def pyStrip (s : Str) : Str :=
  ((s.dropWhile isPySpace).reverse.dropWhile isPySpace).reverse

/-- Python `s.split(sep)` for a single-character separator. -/
def splitChar (sep : Char) : Str → List Str
  | [] => [[]]
  | c :: rest =>
    if c == sep then [] :: splitChar sep rest
    else
      match splitChar sep rest with
      | t :: ts => (c :: t) :: ts
      | [] => [[c]]

/-- Python `needle in hay` (substring containment). -/
def isSubstrOf (needle hay : Str) : Bool :=
  hay.tails.any fun t => needle.isPrefixOf t

/-- Python `s.replace(q, '')` for a single character `q`. -/
def removeChar (q : Char) (s : Str) : Str := s.filter fun c => !(c == q)

/-- Python `s.replace(a, b)` for single characters `a`, `b`. -/
def replaceChar (a b : Char) (s : Str) : Str := s.map fun c => if c == a then b else c

/-- Python `s.lower()` (ASCII case mapping, as used on this script's date texts). -/
def pyLower (s : Str) : Str := s.map Char.toLower

/-- Python `s.upper()` (ASCII case mapping, as used on this script's filter texts). -/
def pyUpper (s : Str) : Str := s.map Char.toUpper

/-! ## Date parsing: `_parse_dates` (lines 130-173) and `validate_dates` (1092-1107) -/

/-- The relative-interval keywords of `_parse_dates` (line 147). -/
def time_words : List Str :=
  [strL "hour", strL "day", strL "week", strL "month", strL "year"]

/-- `any(word in in_dates for word in time_words)` (line 149). -/
def hasTimeWord (s : Str) : Bool := time_words.any fun w => isSubstrOf w s

/-- Normalization of one side of a date range (`_parse_dates` lines 161-169):
if the lower-cased side contains `'t'` the whole lower-cased side has every
`'t'` replaced by `'_'`; otherwise `'_000000'` is appended to the side. -/
def normSide (side : Str) : Str :=
  if (pyLower side).contains 't' then replaceChar 't' '_' (pyLower side)
  else side ++ strL "_000000"

/-- One iteration of the loop of `_parse_dates` (lines 159-169): unpacking
`start, end = rng.split('-')` raises unless the split yields exactly two
parts (`none` = a raised exception); otherwise the normalized pair replaces
the previous one. -/
def datesStep (acc : Option (Option (Str × Str))) (rng : Str) :
    Option (Option (Str × Str)) :=
  match acc with
  | none => none
  | some _ =>
    match splitChar '-' rng with
    | [st, en] => some (some (normSide st, normSide en))
    | _ => none

/-- The whole loop of `_parse_dates` (lines 159-169).  The inner value is the
`(start, end)` pair left in the loop variables after the last iteration:
the `dates.append` at line 171 is indented OUTSIDE the loop, so this last
pair is the only one that is ever appended. -/
def datesLoop (rngs : List Str) : Option (Option (Str × Str)) :=
  rngs.foldl datesStep (some none)

/-- Return value of `_parse_dates`: `''` for empty input, else a list of
`{'start': ..., 'end': ...}` dictionaries. -/
inductive DatesRes where
  | emptyInput : DatesRes
  | ranges : List (Str × Str) → DatesRes
  deriving DecidableEq

/-- `_parse_dates` (lines 130-173).  `relNow` abstracts the
`dateparser.parse`/`datetime.now` pair used by the relative branch
(`none` there models `dateparser.parse` returning `None`, which makes
`.strftime` raise).  The outer `none` models a raised exception. -/
def parse_datesM (relNow : Option (Str × Str)) (in_dates : Str) : Option DatesRes :=
  if in_dates = [] then some .emptyInput
  else if hasTimeWord in_dates then
    match relNow with
    | none => none
    | some (st, en) => some (.ranges [(st, en)])
  else
    match datesLoop (splitChar ',' in_dates) with
    | none => none
    | some none => none
    | some (some r) => some (.ranges [r])

/-- `validate_dates` (lines 1092-1107): returns the input text unchanged when
`_parse_dates` does not raise, and Python `False` (here `none`) when it
raises. -/
def validate_datesM (relNow : Option (Str × Str)) (dates : Str) : Option Str :=
  match parse_datesM relNow dates with
  | some _ => some dates
  | none => none

/-! ### Helper lemmas for the date loop -/

theorem datesStep_bad {rng : Str} (h : (splitChar '-' rng).length ≠ 2)
    (acc : Option (Option (Str × Str))) : datesStep acc rng = none := by
  cases acc with
  | none => rfl
  | some p =>
    unfold datesStep
    rcases hs : splitChar '-' rng with _ | ⟨a, _ | ⟨b, _ | ⟨c, t⟩⟩⟩ <;>
      simp_all [hs]

theorem foldl_datesStep_none (rngs : List Str) :
    rngs.foldl datesStep none = none := by
  induction rngs with
  | nil => rfl
  | cons r rest ih => simpa [datesStep] using ih

theorem datesLoop_bad {rngs : List Str}
    (h : ∃ r ∈ rngs, (splitChar '-' r).length ≠ 2)
    (acc : Option (Option (Str × Str))) : rngs.foldl datesStep acc = none := by
  induction rngs generalizing acc with
  | nil => simp at h
  | cons r rest ih =>
    rcases h with ⟨b, hb, hbad⟩
    rcases List.mem_cons.mp hb with rfl | hmem
    · simp only [List.foldl_cons, datesStep_bad hbad]
      exact foldl_datesStep_none rest
    · exact ih ⟨b, hmem, hbad⟩ _

/-! ### Claims C1 and C8 -/

/-- C1: `_parse_dates` is claimed to return one `DateRange` dictionary per
comma-separated range.  The single-range example of the spec does hold, but on
a two-range input the code returns a single dictionary holding only the LAST
range, because the `dates.append` at line 171 is indented outside the
`for rng in date_ranges` loop.  This theorem evaluates the embedded code at
both inputs. -/
theorem c1_parse_dates_keeps_only_last_range :
    parse_datesM none (strL "20200501-20210105T054540")
      = some (.ranges [(strL "20200501_000000", strL "20210105_054540")]) ∧
    parse_datesM none (strL "20200501-20210105T054540,20220101-20220202")
      = some (.ranges [(strL "20220101_000000", strL "20220202_000000")]) := by
  constructor <;> decide

/-- C8 (amended): `validate_dates` returns `False` for every non-relative,
non-empty date text in which some comma-separated range does not split on
`'-'` into exactly two parts (in particular a range missing the `'-'`
separator); a range with an EMPTY side, however, is NOT rejected. -/
theorem c8_missing_dash_rejected :
    (∀ (relNow : Option (Str × Str)) (s : Str), s ≠ [] → hasTimeWord s = false →
      (∃ rng ∈ splitChar ',' s, (splitChar '-' rng).length ≠ 2) →
      validate_datesM relNow s = none) ∧
    validate_datesM none (strL "20200101-") = some (strL "20200101-") := by
  constructor
  · intro relNow s hne hword hbad
    unfold validate_datesM parse_datesM datesLoop
    rw [if_neg hne, hword, datesLoop_bad hbad]
    simp
  · decide

/-- Witness for C8: the dash-less text `"20200101"` is concretely rejected. -/
theorem c8_missing_dash_rejected_witness :
    validate_datesM none (strL "20200101") = none :=
  c8_missing_dash_rejected.1 none (strL "20200101") (by decide) (by decide)
    (by decide)

/-- Counterexample for C8 as stated: `"20200101-"` has an empty end side, yet
`validate_dates` does not return `False`; `_parse_dates` happily produces a
`DateRange` whose end boundary is just `'_000000'`. -/
theorem c8_empty_side_accepted :
    validate_datesM none (strL "20200101-") ≠ none ∧
    parse_datesM none (strL "20200101-")
      = some (.ranges [(strL "20200101_000000", strL "_000000")]) := by
  constructor <;> decide

/-! ## Filter parsing: `_parse_filters` (lines 175-234) -/

/-- Greedy left-to-right splitting on a multi-character separator, one step per
unit of fuel (Python `s.split(sep)` for non-empty `sep`; `splitSub` supplies
fuel `s.length`, enough because every step consumes at least one character). -/
def splitSubAux (sep : Str) : Nat → Str → Str → List Str
  | _, [], acc => [acc.reverse]
  | 0, _ :: _, acc => [acc.reverse]
  | fuel + 1, c :: rest, acc =>
    if sep.isPrefixOf (c :: rest) then
      acc.reverse :: splitSubAux sep fuel ((c :: rest).drop sep.length) []
    else
      splitSubAux sep fuel rest (c :: acc)

/-- Python `s.split(sep)` for a non-empty multi-character separator. -/
def splitSub (sep s : Str) : List Str := splitSubAux sep s.length s []

/-- `self.operators` (lines 85-88), in source order: the single-character
operators come before the multi-character ones. -/
def operators : List Str :=
  [strL "=", strL "<", strL ">", strL "<>", strL "<=", strL ">=",
   strL " LIKE ", strL " STARTS WITH ", strL " ENDS WITH ", strL " CONTAINS ",
   strL " CONTAINED BY ", strL " CROSSES ", strL " DISJOINT WITH ",
   strL " INTERSECTS ", strL " OVERLAPS ", strL " TOUCHES ", strL " WITHIN "]

/-- One step of the operator scan of `_parse_filters` (lines 201-205): the
list comprehension keeps every operator occurring in the entry and the
subsequent loop leaves the LAST match in `op`/`filt_split`. -/
def opStep (filt : Str) (acc : Option Str) (o : Str) : Option Str :=
  if isSubstrOf o filt then some o else acc

/-- The operator finally used to split a filter entry (lines 197-205):
the last element of `self.operators` that occurs in the entry, if any. -/
def chosenOp (filt : Str) : Option Str := operators.foldl (opStep filt) none

/-- Dictionary lookup on an association list (Python `d[k]` / `k in d`). -/
def lookupMap {β : Type} (m : List (String × β)) (k : String) : Option β :=
  (m.find? fun p => p.1 == k).map (·.2)

/-- `get_filtMap` (lines 761-962): the static per-collection field map. -/
def filtMap : List (String × List (String × String)) :=
  [("COSMO-SkyMed1",
     [("ORBIT_DIRECTION", "Absolute Orbit"),
      ("PIXEL_SPACING", "Spatial Resolution")]),
   ("DMC",
     [("CLOUD_COVER", "Cloud Cover"),
      ("PIXEL_SPACING", "Spatial Resolution"),
      ("INCIDENCE_ANGLE", "Incidence Angle")]),
   ("Gaofen-1",
     [("CLOUD_COVER", "Cloud Cover"),
      ("PIXEL_SPACING", "Spatial Resolution"),
      ("INCIDENCE_ANGLE", "Sensor Incidence Angle")]),
   ("GeoEye-1",
     [("CLOUD_COVER", "Cloud Cover"),
      ("PIXEL_SPACING", "Spatial Resolution"),
      ("INCIDENCE_ANGLE", "Sensor Incidence Angle"),
      ("SENSOR_MODE", "Sensor Mode")]),
   ("IKONOS",
     [("CLOUD_COVER", "Cloud Cover"),
      ("PIXEL_SPACING", "Spatial Resolution"),
      ("INCIDENCE_ANGLE", "Sensor Incidence Angle"),
      ("SENSOR_MODE", "Sensor Mode")]),
   ("IRS",
     [("CLOUD_COVER", "Cloud Cover"),
      ("PIXEL_SPACING", "Spatial Resolution"),
      ("INCIDENCE_ANGLE", "Sensor Incidence Angle"),
      ("SENSOR_MODE", "Sensor Mode")]),
   ("NAPL",
     [("COLOUR", "Sensor Mode"),
      ("SCALE", "Scale"),
      ("ROLL", "Roll Number"),
      ("PHOTO_NUMBER", "Photo Number")]),
   ("PlanetScope",
     [("CLOUD_COVER", "Cloud Cover"),
      ("PIXEL_SPACING", "Spatial Resolution"),
      ("INCIDENCE_ANGLE", "Sensor Incidence Angle")]),
   ("QuickBird-2",
     [("CLOUD_COVER", "Cloud Cover"),
      ("PIXEL_SPACING", "Spatial Resolution"),
      ("INCIDENCE_ANGLE", "Sensor Incidence Angle"),
      ("SENSOR_MODE", "Sensor Mode")]),
   ("RCMImageProducts",
     [("ORBIT_DIRECTION", "Orbit Direction"),
      ("PIXEL_SPACING", "Spatial Resolution"),
      ("INCIDENCE_ANGLE", "Incidence Angle"),
      ("BEAM_MNEMONIC", "Beam Mnemonic"),
      ("BEAM_MODE_QUALIFIER", "Beam Mode Qualifier"),
      ("DOWNLINK_SEGMENT_ID", "Downlink Segment ID"),
      ("LUT_Applied", "LUT Applied"),
      ("OPEN_DATA", "Open Data"),
      ("POLARIZATION", "Polarization"),
      ("PRODUCT_FORMAT", "Product Format"),
      ("PRODUCT_TYPE", "Product Type"),
      ("RELATIVE_ORBIT", "Relative Orbit"),
      ("WITHIN_ORBIT_TUBE", "Within Orbit Tube"),
      ("ORDER_KEY", "Order Key"),
      ("SEQUENCE_ID", "Sequence Id"),
      ("SPECIAL_HANDLING_REQUIRED", "Special Handling Required")]),
   ("RCMScienceData",
     [("ORBIT_DIRECTION", "Orbit Direction"),
      ("INCIDENCE_ANGLE", "Incidence Angle"),
      ("BEAM_MODE", "Beam Mode Type"),
      ("BEAM_MNEMONIC", "Beam Mnemonic"),
      ("TRANSMIT_POLARIZATION", "Transmit Polarization"),
      ("RECEIVE POLARIZATION", "Receive Polarization"),
      ("DOWNLINK_SEGMENT_ID", "Downlink Segment ID")]),
   ("Radarsat1",
     [("ORBIT_DIRECTION", "Orbit Direction"),
      ("PIXEL_SPACING", "Spatial Resolution"),
      ("INCIDENCE_ANGLE", "Incidence Angle"),
      ("BEAM_MNEMONIC", "Position"),
      ("ORBIT", "Absolute Orbit")]),
   ("Radarsat1RawProducts",
     [("ORBIT_DIRECTION", "Orbit Direction"),
      ("PIXEL_SPACING", "Spatial Resolution"),
      ("INCIDENCE_ANGLE", "Incidence Angle"),
      ("DATASET_ID", "Dataset Id"),
      ("ARCHIVE_FACILITY", "Reception Facility"),
      ("RECEPTION FACILITY", "Reception Facility"),
      ("BEAM_MODE", "Sensor Mode"),
      ("BEAM_MNEMONIC", "Position"),
      ("ABSOLUTE_ORBIT", "Absolute Orbit")]),
   ("Radarsat2",
     [("ORBIT_DIRECTION", "Orbit Direction"),
      ("PIXEL_SPACING", "Spatial Resolution"),
      ("INCIDENCE_ANGLE", "Incidence Angle"),
      ("SEQUENCE_ID", "Sequence Id"),
      ("BEAM_MNEMONIC", "Position"),
      ("LOOK_DIRECTION", "Look Direction"),
      ("TRANSMIT_POLARIZATION", "Transmit Polarization"),
      ("RECEIVE_POLARIZATION", "Receive Polarization"),
      ("IMAGE_ID", "Image Id"),
      ("RELATIVE_ORBIT", "Relative Orbit"),
      ("ORDER_KEY", "Order Key")]),
   ("Radarsat2RawProducts",
     [("ORBIT_DIRECTION", "Orbit Direction"),
      ("PIXEL_SPACING", "Spatial Resolution"),
      ("INCIDENCE_ANGLE", "Incidence Angle"),
      ("LOOK_ORIENTATION", "Look Orientation"),
      ("BEAM_MODE", "Sensor Mode"),
      ("BEAM_MNEMONIC", "Position"),
      ("TRANSMIT_POLARIZATION", "Transmit Polarization"),
      ("RECEIVE_POLARIZATION", "Receive Polarization"),
      ("IMAGE_ID", "Image Id")]),
   ("RapidEye",
     [("CLOUD_COVER", "Cloud Cover"),
      ("PIXEL_SPACING", "Spatial Resolution"),
      ("INCIDENCE_ANGLE", "Sensor Incidence Angle"),
      ("SENSOR_MODE", "Sensor Mode")]),
   ("SGBAirPhotos",
     [("SCALE", "Scale"),
      ("ROLL_NUMBER", "Roll Number"),
      ("PHOTO_NUMBER", "Photo Number"),
      ("AREA", "Area")]),
   ("SPOT",
     [("CLOUD_COVER", "Cloud Cover"),
      ("PIXEL_SPACING", "Spatial Resolution"),
      ("INCIDENCE_ANGLE", "Sensor Incidence Angle")]),
   ("TerraSarX",
     [("ORBIT_DIRECTION", "Orbit Direction"),
      ("PIXEL_SPACING", "Spatial Resolution"),
      ("INCIDENCE_ANGLE", "Incidence Angle")]),
   ("VASP",
     [("VASP_OPTIONS", "Sequence Id")]),
   ("WorldView-1",
     [("CLOUD_COVER", "Cloud Cover"),
      ("PIXEL_SPACING", "Spatial Resolution"),
      ("INCIDENCE_ANGLE", "Sensor Incidence Angle"),
      ("SENSOR_MODE", "Sensor Mode")]),
   ("WorldView-2",
     [("CLOUD_COVER", "Cloud Cover"),
      ("PIXEL_SPACING", "Spatial Resolution"),
      ("INCIDENCE_ANGLE", "Sensor Incidence Angle"),
      ("SENSOR_MODE", "Sensor Mode")]),
   ("WorldView-3",
     [("CLOUD_COVER", "Cloud Cover"),
      ("PIXEL_SPACING", "Spatial Resolution"),
      ("INCIDENCE_ANGLE", "Sensor Incidence Angle"),
      ("SENSOR_MODE", "Sensor Mode")])]

/-- Outcome of one iteration of the `_parse_filters` loop (lines 193-232):
`noOper` = "entered incorrectly" `continue`; `collErr` = `KeyError` on
`get_filtMap()[coll_id]` (a raised exception); `badSplit` = `IndexError` on
`filt_split[1]` (unreachable when an operator was found); `unknownKey` and
`emptyVal` = the two warn-and-`continue` branches; `ok` = the entry written
into `out_filters`. -/
inductive EntryResult where
  | noOper : EntryResult
  | collErr : EntryResult
  | badSplit : EntryResult
  | unknownKey : EntryResult
  | emptyVal : EntryResult
  | ok : String → Str → List Str → EntryResult
  deriving DecidableEq

/-- `val = filt_split[1].strip(); val = val.replace('"', '').replace("'", '')`
(lines 223-224). -/
def entryVal (v : Str) : Str := removeChar '\'' (removeChar '"' (pyStrip v))

/-- Lines 226-232: empty-value check, then `out_filters[field] = (op, vals)`. -/
def peKey (o v : Str) : Option String → EntryResult
  | none => .unknownKey
  | some field =>
    if entryVal v = [] then .emptyVal
    else .ok field o (splitChar '|' (entryVal v))

/-- Lines 211-221: `coll_filts = self.get_filtMap()[coll_id]` (raises
`KeyError` when absent) and the `key in coll_filts` check. -/
def peColl (o k v : Str) : Option (List (String × String)) → EntryResult
  | none => .collErr
  | some coll_filts => peKey o v (lookupMap coll_filts (String.mk (pyStrip k)))

/-- The split of the entry on the chosen operator; `filt_split[1]` raises
`IndexError` when fewer than two parts come back (unreachable, since the
chosen operator occurs in the entry). -/
def peSplit (coll_id : String) (o : Str) : List Str → EntryResult
  | k :: v :: _ => peColl o k v (lookupMap filtMap coll_id)
  | _ => .badSplit

/-- Lines 197-199: entries without any operator are skipped. -/
def peOper (coll_id : String) (filt : Str) : Option Str → EntryResult
  | none => .noOper
  | some o => peSplit coll_id o (splitSub o filt)

/-- The body of the `_parse_filters` loop for one entry (lines 193-232),
starting from `filt = filt.upper()` (line 195). -/
def processEntry (coll_id : String) (f : Str) : EntryResult :=
  peOper coll_id (pyUpper f) (chosenOp (pyUpper f))

/-- `out_filters[field] = (op, vals)` on a Python dict modelled as an ordered
association list: an existing key keeps its position and gets the new value, a
new key is appended. -/
def upsertFilt (acc : List (String × Str × List Str)) (field : String)
    (v : Str × List Str) : List (String × Str × List Str) :=
  if acc.any fun p => p.1 == field then
    acc.map fun p => if p.1 == field then (field, v) else p
  else acc ++ [(field, v)]

/-- The `_parse_filters` loop over all entries; `none` models a raised
exception. -/
def parseFiltersAux (coll_id : String) :
    List Str → List (String × Str × List Str) →
      Option (List (String × Str × List Str))
  | [], acc => some acc
  | f :: rest, acc =>
    match processEntry coll_id f with
    | .noOper => parseFiltersAux coll_id rest acc
    | .unknownKey => parseFiltersAux coll_id rest acc
    | .emptyVal => parseFiltersAux coll_id rest acc
    | .collErr => none
    | .badSplit => none
    | .ok field o vals => parseFiltersAux coll_id rest (upsertFilt acc field (o, vals))

/-- `_parse_filters(filters, coll_id)` (lines 175-234), with the collection
given explicitly (the `coll_id is None` fallback of line 207 is not taken). -/
def parse_filtersM (filters : List Str) (coll_id : String) :
    Option (List (String × Str × List Str)) :=
  parseFiltersAux coll_id filters []

/-! ### Claim C7: multi-character operators beat their single-char prefixes -/

theorem foldl_opStep_shape (filt : Str) (l : List Str) :
    ∀ a : Option Str,
      l.foldl (opStep filt) a = a ∨ ∃ o ∈ l, l.foldl (opStep filt) a = some o := by
  induction l with
  | nil => intro a; left; rfl
  | cons x xs ih =>
    intro a
    rcases ih (opStep filt a x) with h | ⟨o, ho, h⟩
    · by_cases hx : isSubstrOf x filt
      · right
        refine ⟨x, List.mem_cons_self _ _, ?_⟩
        have h' : opStep filt a x = some x := by simp [opStep, hx]
        rw [h'] at h
        rw [List.foldl_cons, h', h]
      · left
        have h' : opStep filt a x = a := by simp [opStep, hx]
        rw [h'] at h
        rw [List.foldl_cons, h', h]
    · right
      exact ⟨o, List.mem_cons_of_mem _ ho, by simpa [List.foldl_cons] using h⟩

/-- C7: whenever a filter entry contains the two-character operator `<=`
(resp. `<>`), the last-match scan over `self.operators` never selects one of
the single-character operators `=`, `<`, `>` — the entry is split on a
multi-character operator. -/
theorem c7_multichar_operator_wins (filt : Str) :
    (isSubstrOf (strL "<=") filt = true →
      chosenOp filt ≠ some (strL "<") ∧ chosenOp filt ≠ some (strL "=") ∧
        chosenOp filt ≠ some (strL ">")) ∧
    (isSubstrOf (strL "<>") filt = true →
      chosenOp filt ≠ some (strL "<") ∧ chosenOp filt ≠ some (strL ">")) := by
  constructor
  · intro h
    have hsplit : operators
        = [strL "=", strL "<", strL ">", strL "<>"] ++ [strL "<="]
          ++ [strL ">=", strL " LIKE ", strL " STARTS WITH ", strL " ENDS WITH ",
              strL " CONTAINS ", strL " CONTAINED BY ", strL " CROSSES ",
              strL " DISJOINT WITH ", strL " INTERSECTS ", strL " OVERLAPS ",
              strL " TOUCHES ", strL " WITHIN "] := rfl
    have hmid :
        List.foldl (opStep filt)
            (List.foldl (opStep filt) none [strL "=", strL "<", strL ">", strL "<>"])
            [strL "<="] = some (strL "<=") := by
      simp only [List.foldl_cons, List.foldl_nil, opStep, h, if_true]
    have hres : chosenOp filt = some (strL "<=") ∨
        ∃ o ∈ [strL ">=", strL " LIKE ", strL " STARTS WITH ", strL " ENDS WITH ",
              strL " CONTAINS ", strL " CONTAINED BY ", strL " CROSSES ",
              strL " DISJOINT WITH ", strL " INTERSECTS ", strL " OVERLAPS ",
              strL " TOUCHES ", strL " WITHIN "], chosenOp filt = some o := by
      unfold chosenOp
      rw [hsplit, List.foldl_append, List.foldl_append, hmid]
      exact foldl_opStep_shape filt _ _
    have hnot : ∀ o ∈ [strL ">=", strL " LIKE ", strL " STARTS WITH ",
        strL " ENDS WITH ", strL " CONTAINS ", strL " CONTAINED BY ",
        strL " CROSSES ", strL " DISJOINT WITH ", strL " INTERSECTS ",
        strL " OVERLAPS ", strL " TOUCHES ", strL " WITHIN "],
        o ≠ strL "<" ∧ o ≠ strL "=" ∧ o ≠ strL ">" := by decide
    rcases hres with hres | ⟨o, ho, hres⟩
    · rw [hres]
      refine ⟨by decide, by decide, by decide⟩
    · rw [hres]
      rcases hnot o ho with ⟨h1, h2, h3⟩
      exact ⟨by simpa using h1, by simpa using h2, by simpa using h3⟩
  · intro h
    have hsplit : operators
        = [strL "=", strL "<", strL ">"] ++ [strL "<>"]
          ++ [strL "<=", strL ">=", strL " LIKE ", strL " STARTS WITH ",
              strL " ENDS WITH ", strL " CONTAINS ", strL " CONTAINED BY ",
              strL " CROSSES ", strL " DISJOINT WITH ", strL " INTERSECTS ",
              strL " OVERLAPS ", strL " TOUCHES ", strL " WITHIN "] := rfl
    have hmid :
        List.foldl (opStep filt)
            (List.foldl (opStep filt) none [strL "=", strL "<", strL ">"])
            [strL "<>"] = some (strL "<>") := by
      simp only [List.foldl_cons, List.foldl_nil, opStep, h, if_true]
    have hres : chosenOp filt = some (strL "<>") ∨
        ∃ o ∈ [strL "<=", strL ">=", strL " LIKE ", strL " STARTS WITH ",
              strL " ENDS WITH ", strL " CONTAINS ", strL " CONTAINED BY ",
              strL " CROSSES ", strL " DISJOINT WITH ", strL " INTERSECTS ",
              strL " OVERLAPS ", strL " TOUCHES ", strL " WITHIN "],
          chosenOp filt = some o := by
      unfold chosenOp
      rw [hsplit, List.foldl_append, List.foldl_append, hmid]
      exact foldl_opStep_shape filt _ _
    have hnot : ∀ o ∈ [strL "<=", strL ">=", strL " LIKE ", strL " STARTS WITH ",
        strL " ENDS WITH ", strL " CONTAINS ", strL " CONTAINED BY ",
        strL " CROSSES ", strL " DISJOINT WITH ", strL " INTERSECTS ",
        strL " OVERLAPS ", strL " TOUCHES ", strL " WITHIN "],
        o ≠ strL "<" ∧ o ≠ strL ">" := by decide
    rcases hres with hres | ⟨o, ho, hres⟩
    · rw [hres]
      refine ⟨by decide, by decide⟩
    · rw [hres]
      rcases hnot o ho with ⟨h1, h2⟩
      exact ⟨by simpa using h1, by simpa using h2⟩

/-- Witness for C7 at a concrete entry: `"INCIDENCE_ANGLE<=30"` contains both
`<` and `<=`, the scan picks `<=` (so the split key/value are
`INCIDENCE_ANGLE` / `30`, not `INCIDENCE_ANGLE` / `=30`). -/
theorem c7_multichar_operator_wins_witness :
    isSubstrOf (strL "<=") (strL "INCIDENCE_ANGLE<=30") = true ∧
    chosenOp (strL "INCIDENCE_ANGLE<=30") ≠ some (strL "<") ∧
    chosenOp (strL "INCIDENCE_ANGLE<=30") = some (strL "<=") ∧
    processEntry "DMC" (strL "INCIDENCE_ANGLE<=30")
      = .ok "Incidence Angle" (strL "<=") [strL "30"] :=
  ⟨by decide,
   ((c7_multichar_operator_wins (strL "INCIDENCE_ANGLE<=30")).1
      (by decide)).1,
   by decide, by decide⟩

/-! ### Claim C6: output size of the filter translation -/

/-- Whether a filter entry is valid (reaches the `out_filters[field] = ...`
assignment rather than being skipped or raising). -/
def entryOk (coll_id : String) (f : Str) : Bool :=
  match processEntry coll_id f with
  | .ok _ _ _ => true
  | _ => false

/-- The canonical field an accepted entry is stored under. -/
def entryFieldOf (coll_id : String) (f : Str) : Option String :=
  match processEntry coll_id f with
  | .ok field _ _ => some field
  | _ => none

theorem upsertFilt_fresh {acc : List (String × Str × List Str)} {field : String}
    (v : Str × List Str) (h : ∀ p ∈ acc, p.1 ≠ field) :
    upsertFilt acc field v = acc ++ [(field, v)] := by
  unfold upsertFilt
  rw [if_neg]
  simp only [List.any_eq_true, beq_iff_eq, not_exists]
  intro p
  intro hcon
  exact h p hcon.1 hcon.2

theorem parseAux_count (coll_id : String) (filters : List Str) :
    ∀ acc : List (String × Str × List Str),
      (∀ f ∈ filters, entryOk coll_id f = true) →
      (filters.map (entryFieldOf coll_id)).Nodup →
      (∀ f ∈ filters, ∀ p ∈ acc, entryFieldOf coll_id f ≠ some p.1) →
      ∃ out, parseFiltersAux coll_id filters acc = some out ∧
        out.length = acc.length + filters.length := by
  induction filters with
  | nil => intro acc _ _ _; exact ⟨acc, rfl, by simp [parseFiltersAux]⟩
  | cons f rest ih =>
    intro acc hok hnodup hdisj
    have hf := hok f (List.mem_cons_self _ _)
    rcases hpe : processEntry coll_id f with _ | _ | _ | _ | _ | ⟨field, o, vals⟩ <;>
      rw [entryOk, hpe] at hf
    · simp at hf
    · simp at hf
    · simp at hf
    · simp at hf
    · simp at hf
    have hfield : entryFieldOf coll_id f = some field := by
      rw [entryFieldOf, hpe]
    have hfresh : ∀ p ∈ acc, p.1 ≠ field := by
      intro p hp heq
      exact hdisj f (List.mem_cons_self _ _) p hp (by rw [hfield, heq])
    have hup := upsertFilt_fresh (o, vals) hfresh
    have hnodup2 : (∀ x ∈ rest, entryFieldOf coll_id x ≠ entryFieldOf coll_id f) ∧
        (rest.map (entryFieldOf coll_id)).Nodup := by simpa using hnodup
    have hok' : ∀ g ∈ rest, entryOk coll_id g = true :=
      fun g hg => hok g (List.mem_cons_of_mem _ hg)
    have hdisj' : ∀ g ∈ rest, ∀ p ∈ upsertFilt acc field (o, vals),
        entryFieldOf coll_id g ≠ some p.1 := by
      intro g hg p hp
      rw [hup, List.mem_append] at hp
      rcases hp with hp | hp
      · exact hdisj g (List.mem_cons_of_mem _ hg) p hp
      · rw [List.mem_singleton] at hp
        subst hp
        intro hgf
        exact hnodup2.1 g hg (by rw [hgf, hfield])
    rcases ih (upsertFilt acc field (o, vals)) hok' hnodup2.2 hdisj' with ⟨out, h1, h2⟩
    refine ⟨out, ?_, ?_⟩
    · rw [parseFiltersAux, hpe]
      exact h1
    · rw [h2, hup]
      simp only [List.length_append, List.length_cons, List.length_nil]
      omega

/-- C6 (amended): when every entry in the list is valid for the target
collection AND the entries map to pairwise distinct canonical fields, the
translated mapping has exactly one field per entry; an entry with an unknown
key is skipped and the remaining entries are still processed.  (As literally
stated the claim fails: two valid entries for the same field overwrite each
other, see the counterexample.) -/
theorem c6_field_count :
    (∀ (coll_id : String) (filters : List Str),
      (∀ f ∈ filters, entryOk coll_id f = true) →
      (filters.map (entryFieldOf coll_id)).Nodup →
      ∃ out, parse_filtersM filters coll_id = some out ∧
        out.length = filters.length) ∧
    (∀ (coll_id : String) (f : Str) (rest : List Str),
      processEntry coll_id f = .unknownKey →
      parse_filtersM (f :: rest) coll_id = parse_filtersM rest coll_id) := by
  constructor
  · intro coll_id filters hok hnodup
    rcases parseAux_count coll_id filters [] hok hnodup (by simp) with ⟨out, h1, h2⟩
    exact ⟨out, h1, by simpa using h2⟩
  · intro coll_id f rest h
    rw [parse_filtersM, parseFiltersAux, h]
    rfl

/-- Witness for C6: two valid DMC entries with distinct fields translate to a
two-field mapping. -/
theorem c6_field_count_witness :
    ∃ out, parse_filtersM [strL "CLOUD_COVER<=10", strL "SENSOR_MODE=S2"] "IKONOS"
        = some out ∧
      out.length = [strL "CLOUD_COVER<=10", strL "SENSOR_MODE=S2"].length :=
  c6_field_count.1 "IKONOS" [strL "CLOUD_COVER<=10", strL "SENSOR_MODE=S2"]
    (by decide) (by decide)

/-- Counterexample for C6 as stated: two valid entries sharing the field
`Beam Mnemonic` produce a one-field mapping (the later entry overwrites the
earlier), not a two-field one. -/
theorem c6_duplicate_field_cex :
    entryOk "RCMImageProducts" (strL "BEAM_MNEMONIC=16M11") = true ∧
    entryOk "RCMImageProducts" (strL "BEAM_MNEMONIC=16M13") = true ∧
    parse_filtersM [strL "BEAM_MNEMONIC=16M11", strL "BEAM_MNEMONIC=16M13"]
        "RCMImageProducts"
      = some [("Beam Mnemonic", (strL "=", [strL "16M13"]))] ∧
    ¬ (parse_filtersM [strL "BEAM_MNEMONIC=16M11", strL "BEAM_MNEMONIC=16M13"]
        "RCMImageProducts").map List.length = some 2 := by
  exact ⟨by decide, by decide, by decide, by decide⟩

/-! ### Claim C9: stored values are upper-cased, quote-free, pipe-split -/

/-- An ASCII lowercase letter. -/
def isLowerAscii (c : Char) : Bool := decide (97 ≤ c.toNat ∧ c.toNat ≤ 122)

theorem toUpper_not_lower (c : Char) : isLowerAscii c.toUpper = false := by
  have hdef : c.toUpper
      = if c.toNat ≥ 97 ∧ c.toNat ≤ 122 then Char.ofNat (c.toNat - 32) else c := rfl
  rw [hdef]
  by_cases h : c.toNat ≥ 97 ∧ c.toNat ≤ 122
  · rw [if_pos h]
    obtain ⟨h1, h2⟩ := h
    generalize c.toNat = n at h1 h2 ⊢
    interval_cases n <;> decide
  · rw [if_neg h]
    simp only [isLowerAscii, decide_eq_false_iff_not]
    intro hc
    exact h ⟨hc.1, hc.2⟩

theorem mem_splitChar {sep : Char} {s : Str} :
    ∀ {t : Str}, t ∈ splitChar sep s → ∀ c ∈ t, c ∈ s := by
  induction s with
  | nil =>
    intro t ht c hc
    simp only [splitChar, List.mem_singleton] at ht
    subst ht
    simp at hc
  | cons a rest ih =>
    intro t ht c hc
    by_cases ha : a == sep
    · rw [splitChar, if_pos ha] at ht
      rcases List.mem_cons.mp ht with rfl | ht'
      · simp at hc
      · exact List.mem_cons_of_mem _ (ih ht' c hc)
    · rw [splitChar, if_neg ha] at ht
      rcases hsp : splitChar sep rest with _ | ⟨u, us⟩
      · rw [hsp, List.mem_singleton] at ht
        subst ht
        rcases List.mem_cons.mp hc with rfl | h'
        · exact List.mem_cons_self _ _
        · simp at h'
      · rw [hsp] at ht
        rcases List.mem_cons.mp ht with rfl | ht'
        · rcases List.mem_cons.mp hc with rfl | hcu
          · exact List.mem_cons_self _ _
          · have hu : u ∈ splitChar sep rest := by
              rw [hsp]; exact List.mem_cons_self _ _
            exact List.mem_cons_of_mem _ (ih hu c hcu)
        · have htt : t ∈ splitChar sep rest := by
            rw [hsp]; exact List.mem_cons_of_mem _ ht'
          exact List.mem_cons_of_mem _ (ih htt c hc)

theorem mem_splitSubAux {sep : Str} :
    ∀ (fuel : Nat) (s acc t : Str), t ∈ splitSubAux sep fuel s acc →
      ∀ c ∈ t, c ∈ s ∨ c ∈ acc := by
  intro fuel
  induction fuel with
  | zero =>
    intro s acc t ht c hc
    cases s with
    | nil =>
      rw [splitSubAux, List.mem_singleton] at ht
      subst ht
      right
      exact List.mem_reverse.mp hc
    | cons a rest =>
      rw [splitSubAux, List.mem_singleton] at ht
      subst ht
      right
      exact List.mem_reverse.mp hc
  | succ fuel ih =>
    intro s acc t ht c hc
    cases s with
    | nil =>
      rw [splitSubAux, List.mem_singleton] at ht
      subst ht
      right
      exact List.mem_reverse.mp hc
    | cons a rest =>
      by_cases hp : sep.isPrefixOf (a :: rest)
      · rw [splitSubAux, if_pos hp] at ht
        rcases List.mem_cons.mp ht with rfl | ht'
        · right; exact List.mem_reverse.mp hc
        · rcases ih _ _ _ ht' c hc with h | h
          · left; exact List.drop_subset _ _ h
          · simp at h
      · rw [splitSubAux, if_neg hp] at ht
        rcases ih _ _ _ ht c hc with h | h
        · left; exact List.mem_cons_of_mem _ h
        · rcases List.mem_cons.mp h with rfl | h'
          · left; exact List.mem_cons_self _ _
          · right; exact h'

theorem mem_splitSub {sep s t : Str} (ht : t ∈ splitSub sep s) :
    ∀ c ∈ t, c ∈ s := by
  intro c hc
  rcases mem_splitSubAux s.length s [] t ht c hc with h | h
  · exact h
  · simp at h

theorem mem_pyStrip {s : Str} : ∀ c ∈ pyStrip s, c ∈ s := by
  intro c hc
  unfold pyStrip at hc
  rw [List.mem_reverse] at hc
  have h1 := (List.dropWhile_sublist isPySpace).subset hc
  rw [List.mem_reverse] at h1
  exact (List.dropWhile_sublist isPySpace).subset h1

theorem mem_removeChar {q : Char} {s : Str} {c : Char} (h : c ∈ removeChar q s) :
    c ∈ s ∧ c ≠ q := by
  unfold removeChar at h
  rw [List.mem_filter] at h
  refine ⟨h.1, ?_⟩
  simpa using h.2

/-- The property C9 asserts of every stored value character. -/
def cleanChar (c : Char) : Prop :=
  isLowerAscii c = false ∧ c ≠ '"' ∧ c ≠ '\''

theorem processEntry_ok_vals {coll_id : String} {f : Str} {field : String}
    {o : Str} {vals : List Str}
    (h : processEntry coll_id f = .ok field o vals) :
    ∀ v ∈ vals, ∀ c ∈ v, cleanChar c := by
  unfold processEntry at h
  rcases ho : chosenOp (pyUpper f) with _ | o' <;> rw [ho] at h
  · simp [peOper] at h
  · rw [peOper] at h
    rcases hs : splitSub o' (pyUpper f) with _ | ⟨k, _ | ⟨v, tl⟩⟩ <;> rw [hs] at h
    · simp [peSplit] at h
    · simp [peSplit] at h
    · rw [peSplit] at h
      rcases hcm : lookupMap filtMap coll_id with _ | cf <;> rw [hcm] at h
      · simp [peColl] at h
      · rw [peColl] at h
        rcases hk : lookupMap cf (String.mk (pyStrip k)) with _ | fld <;>
          rw [hk] at h
        · simp [peKey] at h
        · rw [peKey] at h
          by_cases hv : entryVal v = []
          · rw [if_pos hv] at h
            exact absurd h (by simp)
          · rw [if_neg hv] at h
            injection h with h1 h2 h3
            subst h3
            intro w hw c hc
            have hcval := mem_splitChar hw c hc
            have h4 := mem_removeChar hcval
            have h5 := mem_removeChar h4.1
            have h6 := mem_pyStrip c h5.1
            have hvm : v ∈ splitSub o' (pyUpper f) := by
              rw [hs]
              exact List.mem_cons_of_mem _ (List.mem_cons_self _ _)
            have h7 : c ∈ pyUpper f := mem_splitSub hvm c h6
            rw [pyUpper, List.mem_map] at h7
            obtain ⟨c0, _, hc0⟩ := h7
            refine ⟨?_, h5.2, h4.2⟩
            rw [← hc0]
            exact toUpper_not_lower c0

theorem mem_upsertFilt {acc : List (String × Str × List Str)} {field : String}
    {v : Str × List Str} {t : String × Str × List Str}
    (h : t ∈ upsertFilt acc field v) : t ∈ acc ∨ t = (field, v) := by
  unfold upsertFilt at h
  split at h
  · rw [List.mem_map] at h
    obtain ⟨p, hp, hpe⟩ := h
    by_cases hpf : p.1 == field
    · right; rw [← hpe, if_pos hpf]
    · left; rw [← hpe, if_neg hpf]; exact hp
  · rw [List.mem_append] at h
    rcases h with h | h
    · left; exact h
    · right; exact List.mem_singleton.mp h

/-- All values in an accumulated `out_filters` satisfy `cleanChar`. -/
def goodVals (out : List (String × Str × List Str)) : Prop :=
  ∀ t ∈ out, ∀ v ∈ t.2.2, ∀ c ∈ v, cleanChar c

theorem parseAux_goodVals (coll_id : String) (filters : List Str) :
    ∀ acc out, goodVals acc → parseFiltersAux coll_id filters acc = some out →
      goodVals out := by
  induction filters with
  | nil =>
    intro acc out hacc h
    rw [parseFiltersAux] at h
    injection h with h
    subst h
    exact hacc
  | cons f rest ih =>
    intro acc out hacc h
    rw [parseFiltersAux] at h
    rcases hpe : processEntry coll_id f with _ | _ | _ | _ | _ | ⟨field, o, vals⟩ <;>
      rw [hpe] at h
    · exact ih acc out hacc h
    · exact absurd h (by simp)
    · exact absurd h (by simp)
    · exact ih acc out hacc h
    · exact ih acc out hacc h
    · refine ih (upsertFilt acc field (o, vals)) out ?_ h
      intro t ht
      rcases mem_upsertFilt ht with ht' | ht'
      · exact hacc t ht'
      · subst ht'
        intro v hv c hc
        exact processEntry_ok_vals hpe v hv c hc

/-- C9: every value stored by the filter translation comes from upper-casing
the entry, stripping single and double quotes and splitting on `|`, so it
contains no ASCII lowercase letter and no quote character. -/
theorem c9_values_upper_no_quotes :
    ∀ (coll_id : String) (filters : List Str) (out : List (String × Str × List Str)),
      parse_filtersM filters coll_id = some out →
      ∀ t ∈ out, ∀ v ∈ t.2.2, ∀ c ∈ v,
        isLowerAscii c = false ∧ c ≠ '"' ∧ c ≠ '\'' :=
  fun coll_id filters out h =>
    parseAux_goodVals coll_id filters [] out (by intro t ht; simp at ht) h

/-- Witness for C9: the lower-case, quoted entry `BEAM_MNEMONIC='16m11'`
is stored as the clean value `16M11`. -/
theorem c9_values_upper_no_quotes_witness :
    isLowerAscii 'M' = false ∧ 'M' ≠ '"' ∧ 'M' ≠ '\'' :=
  c9_values_upper_no_quotes "RCMImageProducts" [strL "BEAM_MNEMONIC='16m11'"]
    [("Beam Mnemonic", (strL "=", [strL "16M11"]))] (by decide)
    ("Beam Mnemonic", (strL "=", [strL "16M11"])) (List.mem_singleton.mpr rfl)
    (strL "16M11") (List.mem_singleton.mpr rfl) 'M' (by decide)

/-! ## Records, trimming, order batching and the flow traces -/

/-- One catalog record, as far as the orchestration logic needs it. -/
structure Record where
  recordId : String
  collectionId : String
  deriving DecidableEq

/-- Modelled from the spec: `ImageList.trim(maxCount)` from `utils/image.py`
(the file is not under src/): keep only the first `maxCount` records overall,
preserving original relative order. -/
def trimGlobal (recs : List Record) (maxCount : Nat) : List Record :=
  recs.take maxCount

/-- Helper for `trimColl`: `seen` holds the collection ids of the records
already walked over. -/
def trimCollAux (m : Nat) (colls : List String) :
    List Record → List String → List Record
  | [], _ => []
  | r :: rest, seen =>
    if r.collectionId ∈ colls ∧ seen.count r.collectionId < m then
      r :: trimCollAux m colls rest (seen ++ [r.collectionId])
    else trimCollAux m colls rest (seen ++ [r.collectionId])

/-- Modelled from the spec: `ImageList.trim(maxCount, collections)` from
`utils/image.py` (the file is not under src/): keep only the first `maxCount`
records of each named collection, preserving original relative order. -/
def trimColl (recs : List Record) (m : Nat) (colls : List String) : List Record :=
  trimCollAux m colls recs []

/-- The result-trimming branch of `search_orderDownload` (lines 1301-1324):
with a maximum given, a single queried collection gets the global trim
(`query_imgs.trim(max_images)`, line 1320) and more than one queried
collection gets the per-collection trim
(`query_imgs.trim(max_images, collections)`, line 1324). -/
def trimStage (recs : List Record) (max_images : Option Nat)
    (collections : List String) : List Record :=
  match max_images with
  | none => recs
  | some m =>
    if collections.length = 1 then trimGlobal recs m
    else trimColl recs m collections

/-- One slice of the ordering loop (lines 1345-1348): `json_res[idx:]` when
fewer than `max_items` records remain, else `json_res[idx:max_items + idx]`. -/
def slice {α : Type} (res : List α) (k idx : Nat) : List α :=
  if res.length < idx + k then res.drop idx else (res.take (idx + k)).drop idx

/-- The loop indices `range(0, len(json_res), max_items)` (line 1343). -/
def chunkStarts (len k : Nat) : List Nat := List.range' 0 ((len + k - 1) / k) k

/-- The per-order batches cut by the ordering loop (lines 1343-1351). -/
def orderChunks {α : Type} (res : List α) (k : Nat) : List (List α) :=
  (chunkStarts res.length k).map (slice res k)

/-- File-system / process / RAPI effects of the orchestration code, in
program order.  Printing and logging are not tracked. -/
inductive Effect where
  | orderCall : List Record → Effect
  | writeCSV : List Record → Effect
  | geoExport : Effect
  | downloadCall : Effect
  | exitP : Nat → Effect
  deriving DecidableEq

/-- `export_results` (lines 485-500): when no result set has been recorded
(`self.cur_res is None`) it returns immediately and touches nothing;
otherwise it writes the results CSV.  The first component is the (unchanged)
`self.cur_res`. -/
def export_resultsM (cur_res : Option (List Record)) :
    Option (List Record) × List Effect :=
  (cur_res,
   match cur_res with
   | none => []
   | some recs => [.writeCSV recs])

/-- The order submissions actually issued (lines 1337-1351): one single order
call when `max_items is None or max_items == 0`, else one call per batch. -/
def orderBatches (json_res : List Record) (max_items : Option Nat) :
    List (List Record) :=
  match max_items with
  | none => [json_res]
  | some 0 => [json_res]
  | some (k + 1) => orderChunks json_res (k + 1)

/-- The order-and-check segment of `search_orderDownload` (lines 1330-1376):
the order calls, `self.cur_res = query_imgs` (line 1354), then the
empty-OrderSet check (lines 1356-1362: `export_results()` first, then
`sys.exit(1)`), else the fall-through into the download stage (line 1376).
`orderFn` abstracts how many order items the RAPI response to one order call
contributes to the final OrderSet; `orders.count_items()` is their sum. -/
def orderStage (query_imgs : List Record) (max_items : Option Nat)
    (orderFn : List Record → Nat) : List Effect :=
  if ((orderBatches query_imgs max_items).map orderFn).sum = 0 then
    (orderBatches query_imgs max_items).map .orderCall
      ++ (export_resultsM (some query_imgs)).2 ++ [.exitP 1]
  else
    (orderBatches query_imgs max_items).map .orderCall ++ [.downloadCall]

/-- `retrieve_orders` (lines 566-619).  `lookupCount` is
`orders.count_items()` after ingesting the `get_ordersByRecords` response;
`answerYes` is the interactive answer read at line 601.  Note that
`self.cur_res = query_imgs` (line 617) runs only AFTER the two early
`sys.exit(0)` branches.  Returns the effect trace, the resulting
`self.cur_res`, and whether the process exited. -/
def retrieve_ordersM (silent : Bool) (cur_res : Option (List Record))
    (query_imgs : List Record) (lookupCount : Nat) (answerYes : Bool) :
    List Effect × Option (List Record) × Bool :=
  if lookupCount = 0 then
    if silent then
      ([.geoExport] ++ (export_resultsM cur_res).2 ++ [.exitP 0], cur_res, true)
    else if answerYes then
      ([.orderCall query_imgs], some query_imgs, false)
    else
      ([.geoExport] ++ (export_resultsM cur_res).2 ++ [.exitP 0], cur_res, true)
  else ([], some query_imgs, false)

/-- `download_only` (lines 1606-1675) from CSV ingestion onwards:
`_get_prevRes` (line 1639, defined at lines 368-386) never assigns
`self.cur_res`, which in this flow is still `None` from `__init__`
(line 128) when `retrieve_orders` runs; afterwards the download / report
tail (lines 1652-1670). -/
def download_onlyM (silent : Bool) (csvRecs : List Record) (lookupCount : Nat)
    (answerYes : Bool) : List Effect :=
  match retrieve_ordersM silent none csvRecs lookupCount answerYes with
  | (effs, _, true) => effs
  | (effs, cur_res, false) =>
      effs ++ [.downloadCall, .geoExport] ++ (export_resultsM cur_res).2

/-- The `KeyboardInterrupt` handler of `main` (lines 2749-2759) when the
`Eodms_OrderDownload` object exists: `export_results()` then `sys.exit(1)`. -/
def interruptHandlerM (cur_res : Option (List Record)) : List Effect :=
  (export_resultsM cur_res).2 ++ [.exitP 1]

/-! ### Claim C3: the ordering loop is a faithful batching -/

theorem slice_shift {α : Type} (res : List α) {k : Nat} (s : Nat) (hk : 1 ≤ k) :
    slice res k (s + k) = slice (res.drop k) k s := by
  unfold slice
  rw [List.length_drop]
  by_cases h : res.length < s + k + k
  · rw [if_pos h, if_pos (by omega)]
    rw [List.drop_drop, Nat.add_comm k s]
  · rw [if_neg h, if_neg (by omega)]
    rw [List.drop_take, List.drop_take, List.drop_drop]
    congr 1
    · omega
    · congr 1
      omega

theorem range'_slice_shift {α : Type} (res : List α) {k : Nat} (hk : 1 ≤ k) :
    ∀ (m s : Nat), (List.range' (s + k) m k).map (slice res k)
      = (List.range' s m k).map (slice (res.drop k) k) := by
  intro m
  induction m with
  | zero => intro s; rfl
  | succ m ih =>
    intro s
    rw [show List.range' (s + k) (m + 1) k = (s + k) :: List.range' (s + k + k) m k
          from rfl,
        show List.range' s (m + 1) k = s :: List.range' (s + k) m k from rfl,
        List.map_cons, List.map_cons, slice_shift res s hk, ih (s + k)]

theorem ceil_div_drop {k : Nat} (hk : 1 ≤ k) {len m : Nat}
    (hm : (len + k - 1) / k = m + 1) : (len - k + k - 1) / k = m := by
  have h1 : 1 ≤ len := by
    by_contra h
    have h0 : len = 0 := by omega
    subst h0
    rw [Nat.div_eq_of_lt (by omega)] at hm
    omega
  have hrw : len + k - 1 = (len - 1) + k := by omega
  rw [hrw, Nat.add_div_right _ (by omega)] at hm
  have hm' : (len - 1) / k = m := by omega
  by_cases hcase : len ≤ k
  · have h2 : len - k = 0 := by omega
    rw [h2]
    rw [Nat.div_eq_of_lt (by omega)]
    rw [Nat.div_eq_of_lt (by omega)] at hm'
    omega
  · have hrw2 : len - k + k - 1 = (len - 1 - k) + k := by omega
    rw [hrw2, Nat.add_div_right _ (by omega)]
    rw [Nat.div_eq_sub_div (by omega) (by omega)] at hm'
    omega

theorem orderChunks_flatten_aux {α : Type} {k : Nat} (hk : 1 ≤ k) :
    ∀ (m : Nat) (res : List α), (res.length + k - 1) / k = m →
      ((List.range' 0 m k).map (slice res k)).flatten = res := by
  intro m
  induction m with
  | zero =>
    intro res hm
    have hlt := (Nat.div_eq_zero_iff (by omega)).mp hm
    have hlen : res.length = 0 := by omega
    rw [List.length_eq_zero.mp hlen]
    rfl
  | succ m ih =>
    intro res hm
    rw [show List.range' 0 (m + 1) k = 0 :: List.range' (0 + k) m k from rfl,
        List.map_cons, List.flatten_cons, range'_slice_shift res hk m 0,
        ih (res.drop k) (by simpa [List.length_drop] using ceil_div_drop hk hm)]
    unfold slice
    by_cases h : res.length < 0 + k
    · rw [if_pos h, List.drop_zero, List.drop_eq_nil_of_le (by omega),
          List.append_nil]
    · rw [if_neg h, List.drop_zero, Nat.zero_add, List.take_append_drop]

theorem orderChunks_flatten {α : Type} (res : List α) {k : Nat} (hk : 1 ≤ k) :
    (orderChunks res k).flatten = res :=
  orderChunks_flatten_aux hk _ res rfl

theorem orderChunks_dropLast_aux {α : Type} {k : Nat} (hk : 1 ≤ k) :
    ∀ (m : Nat) (res : List α), (res.length + k - 1) / k = m →
      ∀ c ∈ ((List.range' 0 m k).map (slice res k)).dropLast, c.length = k := by
  intro m
  induction m with
  | zero => intro res hm c hc; simp at hc
  | succ m ih =>
    intro res hm c hc
    rw [show List.range' 0 (m + 1) k = 0 :: List.range' (0 + k) m k from rfl,
        List.map_cons] at hc
    rcases heq : (List.range' (0 + k) m k).map (slice res k) with _ | ⟨t, ts⟩
    · rw [heq] at hc
      simp at hc
    · rw [heq, List.dropLast_cons₂] at hc
      have hm1 : 1 ≤ m := by
        have hlenEq := congrArg List.length heq
        rw [List.length_map, List.length_range'] at hlenEq
        simp [hlenEq]
      rcases List.mem_cons.mp hc with rfl | hc'
      · have hq : 2 ≤ (res.length + k - 1) / k := by omega
        have hlen : k + 1 ≤ res.length := by
          by_contra hcon
          have h2 : res.length + k - 1 < 2 * k := by omega
          have h3 := (Nat.div_lt_iff_lt_mul (by omega : 0 < k)).mpr
            (by omega : res.length + k - 1 < 2 * k)
          omega
        show (slice res k 0).length = k
        unfold slice
        rw [if_neg (by omega), List.drop_zero, List.length_take]
        omega
      · rw [← heq, range'_slice_shift res hk m 0] at hc'
        exact ih (res.drop k)
          (by simpa [List.length_drop] using ceil_div_drop hk hm) c hc'

theorem orderChunks_dropLast {α : Type} (res : List α) {k : Nat} (hk : 1 ≤ k) :
    ∀ c ∈ (orderChunks res k).dropLast, c.length = k :=
  orderChunks_dropLast_aux hk _ res rfl

/-- Whether an effect is an order-submission call. -/
def isOrdCall : Effect → Bool
  | .orderCall _ => true
  | _ => false

/-- The five records of the concrete ordering scenario. -/
def recs5 : List Record :=
  [⟨"r1", "RCMImageProducts"⟩, ⟨"r2", "RCMImageProducts"⟩,
   ⟨"r3", "RCMImageProducts"⟩, ⟨"r4", "RCMImageProducts"⟩,
   ⟨"r5", "RCMImageProducts"⟩]

/-- C3: for every record sequence and every `max_items ≥ 1` the ordering loop
partitions the sequence by position: the concatenation of the batches gives
the sequence back and every batch but the last has exactly `max_items`
records; concretely, 5 records with `max_items = 2` give 3 order calls with
batch sizes (2, 2, 1), each record appearing in exactly one batch. -/
theorem c3_order_batching :
    (∀ (seq : List Record) (k : Nat), 1 ≤ k →
      (orderChunks seq k).flatten = seq ∧
      ∀ c ∈ (orderChunks seq k).dropLast, c.length = k) ∧
    (orderChunks recs5 2).map List.length = [2, 2, 1] ∧
    (orderStage recs5 (some 2) List.length).countP isOrdCall = 3 ∧
    ∀ r ∈ recs5, ((orderChunks recs5 2).map (List.count r)).sum = 1 := by
  refine ⟨fun seq k hk => ⟨orderChunks_flatten seq hk, orderChunks_dropLast seq hk⟩,
    by decide, by decide, by decide⟩

/-- Witness for C3 at the concrete scenario. -/
theorem c3_order_batching_witness :
    (orderChunks recs5 2).flatten = recs5 ∧
    ∀ c ∈ (orderChunks recs5 2).dropLast, c.length = 2 :=
  c3_order_batching.1 recs5 2 (by decide)

/-! ### Claim C2: trimming with several collections is per-collection -/

theorem trimCollAux_filter (m : Nat) (colls : List String) {c : String}
    (hc : c ∈ colls) :
    ∀ (rest : List Record) (seen : List String),
      (trimCollAux m colls rest seen).filter (fun r => r.collectionId == c)
        = (rest.filter (fun r => r.collectionId == c)).take (m - seen.count c) := by
  intro rest
  induction rest with
  | nil => intro seen; simp [trimCollAux]
  | cons r rest ih =>
    intro seen
    by_cases hrc : r.collectionId = c
    · have hp : (r.collectionId == c) = true := by simp [hrc]
      have hcount : (seen ++ [r.collectionId]).count c = seen.count c + 1 := by
        rw [List.count_append]
        simp [List.count_cons, hrc]
      by_cases hcnt : seen.count c < m
      · have hcond : r.collectionId ∈ colls ∧ seen.count r.collectionId < m := by
          rw [hrc]; exact ⟨hc, hcnt⟩
        rw [trimCollAux, if_pos hcond, List.filter_cons, List.filter_cons]
        simp only [hp, if_true]
        rw [ih (seen ++ [r.collectionId]), hcount]
        have hsucc : m - seen.count c = (m - (seen.count c + 1)) + 1 := by omega
        rw [hsucc]
        rfl
      · have hcond : ¬(r.collectionId ∈ colls ∧ seen.count r.collectionId < m) := by
          rw [hrc]; intro hcon; exact hcnt hcon.2
        rw [trimCollAux, if_neg hcond, ih (seen ++ [r.collectionId]), hcount]
        have h0 : m - (seen.count c + 1) = 0 := by omega
        have h0' : m - seen.count c = 0 := by omega
        rw [h0, h0']
        simp
    · have hp : (r.collectionId == c) = false := by simp [hrc]
      have hcount : (seen ++ [r.collectionId]).count c = seen.count c := by
        rw [List.count_append]
        simp [List.count_cons, hrc]
      by_cases hcond : r.collectionId ∈ colls ∧ seen.count r.collectionId < m
      · rw [trimCollAux, if_pos hcond, List.filter_cons, List.filter_cons]
        simp only [hp, Bool.false_eq_true, if_false]
        rw [ih (seen ++ [r.collectionId]), hcount]
      · rw [trimCollAux, if_neg hcond, ih (seen ++ [r.collectionId]), hcount,
            List.filter_cons]
        simp only [hp, Bool.false_eq_true, if_false]

theorem trimCollAux_sublist (m : Nat) (colls : List String) :
    ∀ (rest : List Record) (seen : List String),
      (trimCollAux m colls rest seen).Sublist rest := by
  intro rest
  induction rest with
  | nil => intro seen; simp [trimCollAux]
  | cons r rest ih =>
    intro seen
    rw [trimCollAux]
    by_cases hcond : r.collectionId ∈ colls ∧ seen.count r.collectionId < m
    · rw [if_pos hcond]
      exact (ih _).cons₂ r
    · rw [if_neg hcond]
      exact (ih _).cons r

/-- C2 (amended): when a maximum is given and MORE than one collection is
searched, `search_orderDownload` trims the results per collection — for every
named collection the surviving records are the first `maxCount` records of
that collection, in original relative order — not to the first `maxCount`
records overall (that global trim happens only for a single collection). -/
theorem c2_trim_per_collection :
    ∀ (recs : List Record) (m : Nat) (colls : List String), 2 ≤ colls.length →
      trimStage recs (some m) colls = trimColl recs m colls ∧
      (trimStage recs (some m) colls).Sublist recs ∧
      ∀ c ∈ colls,
        (trimStage recs (some m) colls).filter (fun r => r.collectionId == c)
          = (recs.filter (fun r => r.collectionId == c)).take m := by
  intro recs m colls hlen
  have ht : trimStage recs (some m) colls = trimColl recs m colls := by
    show (if colls.length = 1 then trimGlobal recs m else trimColl recs m colls)
      = trimColl recs m colls
    rw [if_neg (by omega)]
  refine ⟨ht, ?_, ?_⟩
  · rw [ht]
    exact trimCollAux_sublist m colls recs []
  · intro c hc
    rw [ht]
    have h := trimCollAux_filter m colls hc recs []
    simpa using h

/-- The three records (two collections) of the concrete trim scenario. -/
def recs3 : List Record := [⟨"r1", "A"⟩, ⟨"r2", "A"⟩, ⟨"r3", "B"⟩]

/-- Witness for C2 at the concrete two-collection scenario. -/
theorem c2_trim_per_collection_witness :
    trimStage recs3 (some 2) ["A", "B"] = trimColl recs3 2 ["A", "B"] :=
  (c2_trim_per_collection recs3 2 ["A", "B"] (by decide)).1

/-- Counterexample for C2 as stated: 3 records across the 2 searched
collections with cap 2 keep ALL 3 records (2 is the per-collection cap), not
the first 2 overall. -/
theorem c2_multi_collection_not_global_trim :
    trimStage recs3 (some 2) ["A", "B"] = recs3 ∧
    (trimStage recs3 (some 2) ["A", "B"]).length = 3 ∧
    trimStage recs3 (some 2) ["A", "B"] ≠ recs3.take 2 := by
  refine ⟨by decide, by decide, by decide⟩

/-! ### Claim C4: empty final OrderSet is fatal, after the CSV export -/

/-- C4: after all order submissions, a total item count of zero makes the run
fatal — the trace is the order calls, then the results-CSV write of the
accumulated RecordSet, then `sys.exit(1)`, with no download; a non-zero count
continues into the download stage with no exit. -/
theorem c4_empty_final_orderset :
    ∀ (query : List Record) (max_items : Option Nat) (orderFn : List Record → Nat),
      (((orderBatches query max_items).map orderFn).sum = 0 →
        orderStage query max_items orderFn
          = (orderBatches query max_items).map Effect.orderCall
              ++ [Effect.writeCSV query, Effect.exitP 1] ∧
        Effect.downloadCall ∉ orderStage query max_items orderFn) ∧
      (((orderBatches query max_items).map orderFn).sum ≠ 0 →
        orderStage query max_items orderFn
          = (orderBatches query max_items).map Effect.orderCall
              ++ [Effect.downloadCall] ∧
        ∀ n, Effect.exitP n ∉ orderStage query max_items orderFn) := by
  intro query max_items orderFn
  constructor
  · intro h
    have he : orderStage query max_items orderFn
        = (orderBatches query max_items).map Effect.orderCall
            ++ [Effect.writeCSV query, Effect.exitP 1] := by
      rw [orderStage, if_pos h]
      simp [export_resultsM]
    refine ⟨he, ?_⟩
    rw [he]
    simp
  · intro h
    have he : orderStage query max_items orderFn
        = (orderBatches query max_items).map Effect.orderCall
            ++ [Effect.downloadCall] := by
      rw [orderStage, if_neg h]
    refine ⟨he, ?_⟩
    intro n
    rw [he]
    simp

/-- Witness for C4: all-zero order responses for the five-record scenario
lead to export-then-exit with no download. -/
theorem c4_empty_final_orderset_witness :
    Effect.downloadCall ∉ orderStage recs5 (some 2) (fun _ => 0) :=
  ((c4_empty_final_orderset recs5 (some 2) (fun _ => 0)).1 (by decide)).2

/-! ### Claim C5: download-only flow, zero existing orders, silent mode -/

/-- C5: in the download-only flow with zero existing orders and silent mode
the process does exit with code 0 and never attempts a new order — but the
trace contains NO results-CSV write: `export_results` is called (line 593)
while `self.cur_res` is still `None`, because `self.cur_res = query_imgs`
(line 617) only runs after the exit.  The claimed export of the current
RecordSet does not happen. -/
theorem c5_download_only_silent_trace :
    download_onlyM true [⟨"r1", "RCMImageProducts"⟩] 0 false
      = [Effect.geoExport, Effect.exitP 0] := by
  decide

/-! ### Claim C10: `export_results` with no recorded results is a no-op -/

/-- C10: with `cur_res = None`, `export_results` returns leaving the state
unchanged and writing nothing, so the `KeyboardInterrupt` handler run before
any stage recorded results produces no results CSV — only the exit. -/
theorem c10_export_none_noop :
    export_resultsM none = (none, []) ∧
    interruptHandlerM none = [Effect.exitP 1] :=
  ⟨rfl, rfl⟩

end EodmsOD
